import Mathlib

/-!
Shallow embedding of the systemd-manager dbus module (src/src/systemd/dbus.rs):
the unit data model, the ListUnitFiles reply decoder, the togglable-unit
collection filters, and the per-unit registry operations (enable / disable /
start / stop / is_enabled).

Conventions of the embedding:
* Rust character streams are modelled as `List Char`; `String` is kept at the
  API surface (struct fields and decoder input), matching the Rust types.
* Fallible Rust code is modelled with `Option`: a `none` result stands for a
  panic (an `unwrap` / `expect` failure or a checked-arithmetic underflow);
  the Rust functions involved have no error channel in their return types.
* The dbus RPC round trip is abstracted as an explicit input: each operation
  takes the transport outcome (`Except`) that `send_with_reply_and_block`
  produced, and the decoder takes the debug-rendered reply text that
  `format!("{:?}", message)` produced.
-/

namespace SystemdManager

/-- Enablement state of a unit, derived from the daemon-supplied state token
(the variants named in the spec's data model, sibling module of dbus.rs). -/
inductive UnitState where
  | Enabled
  | Disabled
  | Static
  | Masked
  | Unknown
deriving DecidableEq

/-- Kind of a unit, derived from the file extension of its path
(the variants named in the spec's data model, sibling module of dbus.rs). -/
inductive UnitType where
  | Automount
  | Device
  | Mount
  | Path
  | Service
  | Snapshot
  | Socket
  | Target
  | Timer
  | Unknown
deriving DecidableEq

/-- The central unit record: name, absolute path, enablement state and kind,
mirroring the `SystemdUnit` struct used by dbus.rs. -/
structure SystemdUnit where
  name : String
  path : String
  state : UnitState
  utype : UnitType
deriving DecidableEq

/-- Modelled from the spec: the unit-type classifier (spec section 4.3) lives in
the sibling module, which is not under src/. The type is a pure function of the
file extension of the path: `.service`, `.socket`, `.timer`, `.mount`,
`.automount`, `.target`, `.device`, `.path`, `.snapshot`; anything else maps to
`Unknown`. -/
def UnitType.new (p : List Char) : UnitType :=
  if (".automount").data.isSuffixOf p then UnitType.Automount
  else if (".device").data.isSuffixOf p then UnitType.Device
  else if (".mount").data.isSuffixOf p then UnitType.Mount
  else if (".path").data.isSuffixOf p then UnitType.Path
  else if (".service").data.isSuffixOf p then UnitType.Service
  else if (".snapshot").data.isSuffixOf p then UnitType.Snapshot
  else if (".socket").data.isSuffixOf p then UnitType.Socket
  else if (".target").data.isSuffixOf p then UnitType.Target
  else if (".timer").data.isSuffixOf p then UnitType.Timer
  else UnitType.Unknown

/-- Modelled from the spec: the unit-state classifier (spec section 4.3) lives
in the sibling module, which is not under src/. Per spec sections 4.2 and 4.3
the daemon-supplied state text sits inside the debug framing of the split
token (a six-character prefix ending in an opening quote, and a closing
quote): the framing is stripped and the first character of the raw state text
selects the state (`e` Enabled, `d` Disabled, `s` Static, `m` Masked,
anything else Unknown). -/
def UnitState.new (tok : List Char) : UnitState :=
  match (tok.drop 6).takeWhile (fun c => c != '"') with
  | [] => UnitState.Unknown
  | c :: _ =>
    if c = 'e' then UnitState.Enabled
    else if c = 'd' then UnitState.Disabled
    else if c = 's' then UnitState.Static
    else if c = 'm' then UnitState.Masked
    else UnitState.Unknown

/-- Rust `str::split` on a single separator character: n separators yield
n + 1 tokens, so the empty input yields one empty token. -/
def splitOnChar (sep : Char) : List Char → List (List Char)
  | [] => [[]]
  | c :: rest =>
    match splitOnChar sep rest with
    | [] => [[]]
    | t :: ts => if c = sep then [] :: t :: ts else (c :: t) :: ts

/-- Normalized components of a Unix path, as Rust `Path::components` yields
them: split on `/`, with empty and `.` pieces dropped. -/
def pathComponents (p : List Char) : List (List Char) :=
  (splitOnChar '/' p).filter (fun c => decide (c ≠ [] ∧ c ≠ ['.']))

/-- Model of Rust `std::path::Path::file_name` on Unix paths: the last
normalized component is returned unless it is `..`, in which case (or when no
component remains) the result is `None`. -/
def rustFileName (p : List Char) : Option (List Char) :=
  match (pathComponents p).getLast? with
  | none => none
  | some c => if c = ['.', '.'] then none else some c

/-- The decoder's two-at-a-time consumption of the comma-split token stream:
`while let (Some(path), Some(state)) = (iterator.next(), iterator.next())`.
A trailing unpaired token is dropped, exactly as the loop drops it. -/
def pairUp : List (List Char) → List (List Char × List Char)
  | a :: b :: rest => (a, b) :: pairUp rest
  | _ => []

/-- Construction of one unit from one (path-token, state-token) pair, as in
the body of the decoder loop: the path token loses its fixed 14-character
framing and is cut at the closing quote; the name is the final path component
(`Path::file_name().unwrap()` — `none` models the panic when the component is
absent); type and state are classified from the path and the state token. -/
def unitOfPair (pathTok stateTok : List Char) : Option SystemdUnit :=
  let p := (pathTok.drop 14).takeWhile (fun c => c != '"')
  match rustFileName p with
  | none => none
  | some nm =>
    some { name := String.mk nm, path := String.mk p,
           state := UnitState.new stateTok, utype := UnitType.new p }

/-- The decoder loop over all pairs; a `none` from any `unitOfPair` (a panic
inside the loop) aborts the whole decode. -/
def buildUnits : List (List Char × List Char) → Option (List SystemdUnit)
  | [] => some []
  | (pt, st) :: rest =>
    match unitOfPair pt st with
    | none => none
    | some u =>
      match buildUnits rest with
      | none => none
      | some us => some (u :: us)

/-- The fixed-width framing strip of the decoder:
`input.chars().skip(7).take(input.chars().count() - 17)`. The unchecked
`usize` subtraction underflows whenever the input holds fewer than 17
characters; `none` models that arithmetic failure. -/
def stripFraming (l : List Char) : Option (List Char) :=
  if l.length < 17 then none
  else some ((l.drop 7).take (l.length - 17))

/-- Lowercasing of a character stream, modelling `str::to_lowercase` on the
ASCII range relevant to unit names. -/
def lowerChars (l : List Char) : List Char := l.map Char.toLower

/-- Lexicographic less-or-equal on character streams by code point, the order
underlying Rust `Ord::cmp` on strings. -/
def lexLe : List Char → List Char → Bool
  | [], _ => true
  | _ :: _, [] => false
  | a :: as, b :: bs =>
    if a < b then true
    else if a = b then lexLe as bs
    else false

/-- The decoder's sort comparator:
`a.name.to_lowercase().cmp(&b.name.to_lowercase())`. -/
def nameLe (a b : SystemdUnit) : Bool :=
  lexLe (lowerChars a.name.data) (lowerChars b.name.data)

/-- Ordered insertion for the sort model. -/
def insertBy (le : α → α → Bool) (a : α) : List α → List α
  | [] => [a]
  | b :: bs => if le a b then a :: b :: bs else b :: insertBy le a bs

/-- Comparison sort modelling `quickersort::sort_by`: a sort of the list by
the given comparator. -/
def sortBy (le : α → α → Bool) : List α → List α
  | [] => []
  | a :: as => insertBy le a (sortBy le as)

/-- The decoder `parse_message`: strip the fixed framing, split on commas,
consume pairs into units, then sort by lowercased name. `none` models the
panics of the Rust function (framing underflow, `file_name().unwrap()`). -/
def parse_message (input : String) : Option (List SystemdUnit) :=
  match stripFraming input.data with
  | none => none
  | some message =>
    match buildUnits (pairUp (splitOnChar ',' message)) with
    | none => none
    | some units => some (sortBy nameLe units)

/-- The transport round trip of `list_unit_files`, in the two stages of the
`dbus_connect!` macro: `Connection::get_private(BusType::System).unwrap()` —
a failed bus connection is an unwrap panic (`none`) — then
`send_with_reply_and_block(message, 4000)`, whose failure the Rust code turns
into an `.expect(...)` panic (`none`); on success the debug-rendered reply
text is decoded by `parse_message`. -/
def list_unit_files (conn : Except String Unit) (send : Except String String) :
    Option (List SystemdUnit) :=
  match conn with
  | Except.error _ => none
  | Except.ok _ =>
    match send with
    | Except.error _ => none
    | Except.ok rendered => parse_message rendered

/-- Filter of togglable services: type Service, state Enabled or Disabled,
path not ending in the template suffix. -/
def collect_togglable_services (units : List SystemdUnit) : List SystemdUnit :=
  units.filter fun x =>
    decide (x.utype = UnitType.Service) &&
    (decide (x.state = UnitState.Enabled) || decide (x.state = UnitState.Disabled)) &&
    !(("@.service").data.isSuffixOf x.path.data)

/-- Filter of togglable sockets: type Socket, state Enabled or Disabled,
path not ending in the template suffix. -/
def collect_togglable_sockets (units : List SystemdUnit) : List SystemdUnit :=
  units.filter fun x =>
    decide (x.utype = UnitType.Socket) &&
    (decide (x.state = UnitState.Enabled) || decide (x.state = UnitState.Disabled)) &&
    !(("@.socket").data.isSuffixOf x.path.data)

/-- Filter of togglable timers: type Timer, state Enabled or Disabled,
path not ending in the template suffix. -/
def collect_togglable_timers (units : List SystemdUnit) : List SystemdUnit :=
  units.filter fun x =>
    decide (x.utype = UnitType.Timer) &&
    (decide (x.state = UnitState.Enabled) || decide (x.state = UnitState.Disabled)) &&
    !(("@.timer").data.isSuffixOf x.path.data)

/-- The `is_enabled` operation: the fresh listing is searched (`find`) for the
first unit with this unit's path, and the result is whether that unit's state
is Enabled (`map_or(false, ...)`). The fresh listing obtained over dbus is the
explicit argument. -/
def is_enabled (self : SystemdUnit) (listing : List SystemdUnit) : Bool :=
  match listing.find? (fun u => decide (u.path = self.path)) with
  | none => false
  | some u => decide (u.state = UnitState.Enabled)

mutual
/-- Typed items of a dbus reply, modelling the `MessageItem` variants relevant
to this module: booleans, strings, and signed arrays. -/
inductive Item where
  | bool : Bool → Item
  | str : String → Item
  | array : ItemList → String → Item
/-- A sequence of reply items (nested lists of a nested inductive). -/
inductive ItemList where
  | nil : ItemList
  | cons : Item → ItemList → ItemList
end

/-- Escaping of a string rendered by Rust's `Debug`: quotes and backslashes
gain a backslash, other characters print as themselves. -/
def escChars : List Char → List Char
  | [] => []
  | c :: rest =>
    (if c = '"' then ['\\', '"'] else if c = '\\' then ['\\', '\\'] else [c]) ++ escChars rest

mutual
/-- Debug rendering of one reply item, as Rust `format!("{:?}", ...)` prints a
`MessageItem`: `Bool(true)`, `Str("...")`, `Array([...], "sig")`. -/
def fmtItem : Item → List Char
  | Item.bool true => ['B', 'o', 'o', 'l', '(', 't', 'r', 'u', 'e', ')']
  | Item.bool false => ['B', 'o', 'o', 'l', '(', 'f', 'a', 'l', 's', 'e', ')']
  | Item.str s => ['S', 't', 'r', '(', '"'] ++ escChars s.data ++ ['"', ')']
  | Item.array xs sig =>
      ['A', 'r', 'r', 'a', 'y', '(', '['] ++ fmtList xs ++
        [']', ',', ' ', '"'] ++ escChars sig.data ++ ['"', ')']
/-- Debug rendering of an item sequence: elements joined by a comma and a
space, as Rust prints a `Vec`. -/
def fmtList : ItemList → List Char
  | ItemList.nil => []
  | ItemList.cons i ItemList.nil => fmtItem i
  | ItemList.cons i (ItemList.cons j rest) =>
      fmtItem i ++ [',', ' '] ++ fmtList (ItemList.cons j rest)
end

/-- Debug rendering of a whole reply item sequence, with the enclosing
brackets of the `Vec` rendering: `format!("{:?}", reply.get_items())`. -/
def fmtReply (items : ItemList) : List Char := '[' :: fmtList items ++ [']']

/-- The separator-plus-rest tail of a rendered item sequence: empty after the
last element, a comma and a space before each further element. -/
def fmtSep : ItemList → List Char
  | ItemList.nil => []
  | ItemList.cons j rest => [',', ' '] ++ fmtList (ItemList.cons j rest)

/-- The characters between the brackets of the already-enabled reply
rendering `[Bool(true), Array([], "(sss)")]`. -/
def enInnerChars : List Char :=
  ['B', 'o', 'o', 'l', '(', 't', 'r', 'u', 'e', ')', ',', ' ',
   'A', 'r', 'r', 'a', 'y', '(', '[', ']', ',', ' ', '"', '(', 's', 's', 's', ')', '"', ')']

/-- The characters between the brackets of the already-disabled reply
rendering `[Array([], "(sss)")]`. -/
def arrInnerChars : List Char :=
  ['A', 'r', 'r', 'a', 'y', '(', '[', ']', ',', ' ', '"', '(', 's', 's', 's', ')', '"', ')']

/-- The method name and argument items of the `EnableUnitFiles` call:
`([name], runtime = false, force = true)`. -/
def enableRequest (name : String) : String × ItemList :=
  (("EnableUnitFiles"),
    ItemList.cons (Item.array (ItemList.cons (Item.str name) ItemList.nil) ("s"))
      (ItemList.cons (Item.bool false) (ItemList.cons (Item.bool true) ItemList.nil)))

/-- The method name and argument items of the `DisableUnitFiles` call:
`([name], runtime = false)`. -/
def disableRequest (name : String) : String × ItemList :=
  (("DisableUnitFiles"),
    ItemList.cons (Item.array (ItemList.cons (Item.str name) ItemList.nil) ("s"))
      (ItemList.cons (Item.bool false) ItemList.nil))

/-- The method name and argument items of the `StartUnit` call:
`(name, mode = "fail")`. -/
def startRequest (name : String) : String × ItemList :=
  (("StartUnit"), ItemList.cons (Item.str name) (ItemList.cons (Item.str ("fail")) ItemList.nil))

/-- The method name and argument items of the `StopUnit` call:
`(name, mode = "fail")`. -/
def stopRequest (name : String) : String × ItemList :=
  (("StopUnit"), ItemList.cons (Item.str name) (ItemList.cons (Item.str ("fail")) ItemList.nil))

/-- Reply handling of `enable`: the debug rendering of the reply items is
compared against the literal already-enabled shape; transport or daemon
errors are wrapped with the unit name. -/
def enableHandle (name : String) (reply : Except String ItemList) : Except String String :=
  match reply with
  | Except.ok items =>
    if String.mk (fmtReply items) = "[Bool(true), Array([], \"(sss)\")]"
    then Except.ok (name ++ " already enabled")
    else Except.ok (name ++ " has been enabled")
  | Except.error e => Except.error ("Error enabling " ++ name ++ ":\n" ++ e)

/-- Reply handling of `disable`: the debug rendering of the reply items is
compared against the literal already-disabled shape; transport or daemon
errors are wrapped with the unit name. -/
def disableHandle (name : String) (reply : Except String ItemList) : Except String String :=
  match reply with
  | Except.ok items =>
    if String.mk (fmtReply items) = "[Array([], \"(sss)\")]"
    then Except.ok (name ++ " is already disabled")
    else Except.ok (name ++ " has been disabled")
  | Except.error e => Except.error ("Error disabling " ++ name ++ ":\n" ++ e)

/-- Reply handling of `start`: any reply is success, any error is wrapped with
the unit name and the fixed verb phrase. -/
def startHandle (name : String) (reply : Except String ItemList) : Except String String :=
  match reply with
  | Except.ok _ => Except.ok (name ++ " successfully started")
  | Except.error e => Except.error (name ++ " failed to start:\n" ++ e)

/-- Reply handling of `stop`: any reply is success, any error is wrapped with
the unit name and the fixed verb phrase. -/
def stopHandle (name : String) (reply : Except String ItemList) : Except String String :=
  match reply with
  | Except.ok _ => Except.ok (name ++ " successfully stopped")
  | Except.error e => Except.error (name ++ " failed to stop:\n" ++ e)

/-- The two-stage transport of the `dbus_connect!` macro as the four unit
operations use it: `Connection::get_private(BusType::System).unwrap()` — a
failed bus connection is an unwrap panic (`none`) — and only then the outcome
of `send_with_reply_and_block(message, 4000)` is handed to the operation's
reply handling. -/
def dbusConnect (conn : Except String Unit) (send : Except String ItemList) :
    Option (Except String ItemList) :=
  match conn with
  | Except.error _ => none
  | Except.ok _ => some send

/-- The full enable operation: the connection stage of `dbus_connect!`, then
the reply handling of `enable`. -/
def enableOp (name : String) (conn : Except String Unit)
    (send : Except String ItemList) : Option (Except String String) :=
  match dbusConnect conn send with
  | none => none
  | some reply => some (enableHandle name reply)

/-- The full disable operation: the connection stage of `dbus_connect!`, then
the reply handling of `disable`. -/
def disableOp (name : String) (conn : Except String Unit)
    (send : Except String ItemList) : Option (Except String String) :=
  match dbusConnect conn send with
  | none => none
  | some reply => some (disableHandle name reply)

/-- The full start operation: the connection stage of `dbus_connect!`, then
the reply handling of `start`. -/
def startOp (name : String) (conn : Except String Unit)
    (send : Except String ItemList) : Option (Except String String) :=
  match dbusConnect conn send with
  | none => none
  | some reply => some (startHandle name reply)

/-- The full stop operation: the connection stage of `dbus_connect!`, then
the reply handling of `stop`. -/
def stopOp (name : String) (conn : Except String Unit)
    (send : Except String ItemList) : Option (Except String String) :=
  match dbusConnect conn send with
  | none => none
  | some reply => some (stopHandle name reply)

/-- The debug-rendered ListUnitFiles reply text of the end-to-end scenario:
two units, an enabled sshd.service and a disabled template foo@.service. -/
def rawListing : String :=
  "[Array([Struct([Str(\"/etc/systemd/system/sshd.service\"), Str(\"enabled\")]), Struct([Str(\"/etc/systemd/system/foo@.service\"), Str(\"disabled\")])], \"(ss)\")]"

/-- The decoded template unit of the end-to-end scenario. -/
def fooUnit : SystemdUnit :=
  { name := "foo@.service", path := "/etc/systemd/system/foo@.service",
    state := UnitState.Disabled, utype := UnitType.Service }

/-- The decoded sshd unit of the end-to-end scenario. -/
def sshdUnit : SystemdUnit :=
  { name := "sshd.service", path := "/etc/systemd/system/sshd.service",
    state := UnitState.Enabled, utype := UnitType.Service }

/-- A malformed listing text: long enough to survive the framing strip, but
its first path token is shorter than the 14 characters the decoder skips, so
the recovered path is empty and has no final component. -/
def badInput : String := "0000000short,also0000000000"

/-- A listing entry sharing sshdUnit's path but reporting state Disabled,
for the duplicate-path listing of the is_enabled analysis. -/
def dupDisabled : SystemdUnit :=
  { name := "sshd.service", path := "/etc/systemd/system/sshd.service",
    state := UnitState.Disabled, utype := UnitType.Service }

/-- The reply item sequence the enable handler's string comparison singles
out: carries-out-install true and an empty changes array. -/
def enAlreadyItems : ItemList :=
  ItemList.cons (Item.bool true)
    (ItemList.cons (Item.array ItemList.nil ("(sss)")) ItemList.nil)

/-- The reply item sequence the disable handler's string comparison singles
out: an empty changes array alone. -/
def disAlreadyItems : ItemList :=
  ItemList.cons (Item.array ItemList.nil ("(sss)")) ItemList.nil

/-! ## Order lemmas for the sort model -/

theorem lexLe_total : ∀ a b : List Char, lexLe a b = true ∨ lexLe b a = true
  | [], _ => Or.inl rfl
  | _ :: _, [] => Or.inr rfl
  | a :: as, b :: bs => by
    simp only [lexLe]
    rcases lt_trichotomy a b with h | h | h
    · left; rw [if_pos h]
    · subst h
      rcases lexLe_total as bs with ih | ih
      · left; rw [if_neg (lt_irrefl a), if_pos rfl]; exact ih
      · right; rw [if_neg (lt_irrefl a), if_pos rfl]; exact ih
    · right; rw [if_pos h]

theorem lexLe_trans : ∀ a b c : List Char,
    lexLe a b = true → lexLe b c = true → lexLe a c = true
  | [], _, _, _, _ => rfl
  | _ :: _, [], _, h, _ => by simp [lexLe] at h
  | _ :: _, _ :: _, [], _, h => by simp [lexLe] at h
  | a :: as, b :: bs, c :: cs, h1, h2 => by
    simp only [lexLe] at h1 h2 ⊢
    by_cases hab : a < b
    · by_cases hbc : b < c
      · rw [if_pos (lt_trans hab hbc)]
      · rw [if_neg hbc] at h2
        by_cases hbce : b = c
        · subst hbce; rw [if_pos hab]
        · rw [if_neg hbce] at h2; exact absurd h2 (by simp)
    · rw [if_neg hab] at h1
      by_cases habe : a = b
      · subst habe
        rw [if_pos rfl] at h1
        by_cases hac : a < c
        · rw [if_pos hac]
        · rw [if_neg hac] at h2 ⊢
          by_cases hace : a = c
          · rw [if_pos hace] at h2 ⊢
            exact lexLe_trans as bs cs h1 h2
          · rw [if_neg hace] at h2; exact absurd h2 (by simp)
      · rw [if_neg habe] at h1; exact absurd h1 (by simp)

theorem nameLe_total (a b : SystemdUnit) : nameLe a b = true ∨ nameLe b a = true :=
  lexLe_total _ _

theorem nameLe_trans (a b c : SystemdUnit) :
    nameLe a b = true → nameLe b c = true → nameLe a c = true :=
  lexLe_trans _ _ _

theorem mem_insertBy (le : α → α → Bool) (a x : α) :
    ∀ l : List α, x ∈ insertBy le a l ↔ x = a ∨ x ∈ l
  | [] => by simp [insertBy]
  | b :: bs => by
    cases hle : le a b with
    | true => simp [insertBy, hle]
    | false =>
      simp only [insertBy, hle, Bool.false_eq_true, if_false, List.mem_cons,
        mem_insertBy le a x bs]
      tauto

theorem pairwise_insertBy (le : α → α → Bool)
    (htot : ∀ a b, le a b = true ∨ le b a = true)
    (htrans : ∀ a b c, le a b = true → le b c = true → le a c = true)
    (a : α) : ∀ l : List α, l.Pairwise (fun x y => le x y = true) →
      (insertBy le a l).Pairwise (fun x y => le x y = true)
  | [], _ => by simp [insertBy]
  | b :: bs, hp => by
    rcases List.pairwise_cons.1 hp with ⟨hb, hbs⟩
    cases hle : le a b with
    | true =>
      simp only [insertBy, hle, if_true]
      refine List.pairwise_cons.2 ⟨?_, hp⟩
      intro x hx
      rcases List.mem_cons.1 hx with rfl | hx
      · exact hle
      · exact htrans a b x hle (hb x hx)
    | false =>
      simp only [insertBy, hle, Bool.false_eq_true, if_false]
      refine List.pairwise_cons.2 ⟨?_, pairwise_insertBy le htot htrans a bs hbs⟩
      intro x hx
      rcases (mem_insertBy le a x bs).1 hx with rfl | hx
      · rcases htot x b with h | h
        · rw [hle] at h; exact absurd h (by simp)
        · exact h
      · exact hb x hx

theorem pairwise_sortBy (le : α → α → Bool)
    (htot : ∀ a b, le a b = true ∨ le b a = true)
    (htrans : ∀ a b c, le a b = true → le b c = true → le a c = true) :
    ∀ l : List α, (sortBy le l).Pairwise (fun x y => le x y = true)
  | [] => List.Pairwise.nil
  | a :: as => pairwise_insertBy le htot htrans a _ (pairwise_sortBy le htot htrans as)

theorem mem_sortBy (le : α → α → Bool) (x : α) : ∀ l : List α, x ∈ sortBy le l ↔ x ∈ l
  | [] => Iff.rfl
  | a :: as => by
    rw [sortBy, mem_insertBy, mem_sortBy le x as, List.mem_cons]

/-! ## Claim theorems -/

/-- C1: a unit is in the output of collect_togglable_services iff it is in the
input with type Service, state Enabled or Disabled, and a path not ending in
the `@.service` template suffix; analogously for sockets (`@.socket`) and
timers (`@.timer`); and each filter's output is a sublist of its input, so
the relative input order is preserved. -/
theorem collect_togglable_correct (units : List SystemdUnit) :
    (∀ u, u ∈ collect_togglable_services units ↔
      u ∈ units ∧ u.utype = UnitType.Service ∧
        (u.state = UnitState.Enabled ∨ u.state = UnitState.Disabled) ∧
        ¬ List.IsSuffix ("@.service").data u.path.data) ∧
    (∀ u, u ∈ collect_togglable_sockets units ↔
      u ∈ units ∧ u.utype = UnitType.Socket ∧
        (u.state = UnitState.Enabled ∨ u.state = UnitState.Disabled) ∧
        ¬ List.IsSuffix ("@.socket").data u.path.data) ∧
    (∀ u, u ∈ collect_togglable_timers units ↔
      u ∈ units ∧ u.utype = UnitType.Timer ∧
        (u.state = UnitState.Enabled ∨ u.state = UnitState.Disabled) ∧
        ¬ List.IsSuffix ("@.timer").data u.path.data) ∧
    (collect_togglable_services units).Sublist units ∧
    (collect_togglable_sockets units).Sublist units ∧
    (collect_togglable_timers units).Sublist units := by
  refine ⟨?_, ?_, ?_, List.filter_sublist _, List.filter_sublist _, List.filter_sublist _⟩ <;>
    · intro u
      simp [collect_togglable_services, collect_togglable_sockets,
        collect_togglable_timers, List.mem_filter, ← List.isSuffixOf_iff_suffix,
        and_assoc]

/-- C2: every unit list returned by the decoder is sorted non-decreasingly by
case-insensitive comparison of the units' name fields. -/
theorem parse_message_sorted (input : String) (units : List SystemdUnit)
    (h : parse_message input = some units) :
    units.Pairwise (fun a b => nameLe a b = true) := by
  unfold parse_message at h
  split at h
  · exact absurd h (by simp)
  · split at h
    · exact absurd h (by simp)
    · simp only [Option.some.injEq] at h
      subst h
      exact pairwise_sortBy nameLe nameLe_total nameLe_trans _

set_option maxRecDepth 80000

/-- Witness for C2: the decoder accepts the concrete two-unit listing and the
resulting list is sorted by the comparator. -/
theorem parse_message_sorted_witness :
    List.Pairwise (fun a b => nameLe a b = true) [fooUnit, sshdUnit] :=
  parse_message_sorted rawListing [fooUnit, sshdUnit] (by decide)

theorem rustFileName_spec (p nm : List Char) (h : rustFileName p = some nm) :
    nm ∈ pathComponents p ∧ nm ≠ [] := by
  unfold rustFileName at h
  cases hg : (pathComponents p).getLast? with
  | none => rw [hg] at h; simp at h
  | some c =>
    rw [hg] at h
    simp only [] at h
    by_cases hc : c = ['.', '.']
    · rw [if_pos hc] at h; exact absurd h (by simp)
    · rw [if_neg hc] at h
      simp only [Option.some.injEq] at h
      subst h
      have hmem : c ∈ pathComponents p :=
        List.mem_of_mem_getLast? (show c ∈ (pathComponents p).getLast? from hg)
      have hpred := (List.mem_filter.1 hmem).2
      simp only [decide_eq_true_eq] at hpred
      exact ⟨hmem, hpred.1⟩

theorem unitOfPair_spec (pt st : List Char) (u : SystemdUnit)
    (h : unitOfPair pt st = some u) :
    rustFileName u.path.data = some u.name.data ∧ u.name.data ≠ [] := by
  simp only [unitOfPair] at h
  cases hf : rustFileName ((pt.drop 14).takeWhile (fun c => c != '"')) with
  | none => rw [hf] at h; simp at h
  | some nm =>
    rw [hf] at h
    simp only [Option.some.injEq] at h
    subst h
    exact ⟨hf, (rustFileName_spec _ _ hf).2⟩

theorem buildUnits_mem : ∀ (ps : List (List Char × List Char)) (us : List SystemdUnit),
    buildUnits ps = some us → ∀ u ∈ us, ∃ pt st, unitOfPair pt st = some u
  | [], us, h => by
    simp only [buildUnits, Option.some.injEq] at h
    subst h
    intro u hu
    exact absurd hu (by simp)
  | (pt, st) :: rest, us, h => by
    unfold buildUnits at h
    cases h1 : unitOfPair pt st with
    | none => rw [h1] at h; simp at h
    | some v =>
      rw [h1] at h
      cases h2 : buildUnits rest with
      | none => rw [h2] at h; simp at h
      | some vs =>
        rw [h2] at h
        simp only [Option.some.injEq] at h
        subst h
        intro u hu
        rcases List.mem_cons.1 hu with rfl | hu
        · exact ⟨pt, st, h1⟩
        · exact buildUnits_mem rest vs h2 u hu

/-- C9: every unit produced by the decoder has a non-empty name equal to the
final path component of its path (the result of the file-name computation on
the path). -/
theorem parse_message_name_invariant (input : String) (units : List SystemdUnit)
    (h : parse_message input = some units) :
    ∀ u ∈ units, u.name.data ≠ [] ∧ rustFileName u.path.data = some u.name.data := by
  intro u hu
  unfold parse_message at h
  split at h
  · exact absurd h (by simp)
  · rename_i message hmsg
    split at h
    · exact absurd h (by simp)
    · rename_i us hb
      simp only [Option.some.injEq] at h
      subst h
      have hu' := (mem_sortBy nameLe u us).1 hu
      obtain ⟨pt, st, hps⟩ := buildUnits_mem _ _ hb u hu'
      obtain ⟨h1, h2⟩ := unitOfPair_spec pt st u hps
      exact ⟨h2, h1⟩

/-- Witness for C9 at the concrete listing: the decoded template unit has a
non-empty name that is the final component of its path. -/
theorem parse_message_name_invariant_witness :
    fooUnit.name.data ≠ [] ∧ rustFileName fooUnit.path.data = some fooUnit.name.data :=
  parse_message_name_invariant rawListing [fooUnit, sshdUnit] (by decide) fooUnit (by simp)

/-- C10: the framing strip subtracts 17 from the input's character count with
an unchecked unsigned subtraction; it is total exactly when the input has at
least 17 characters, and for every shorter input the subtraction underflows
(the modelled arithmetic panic), making the whole decoder fail instead of
yielding an empty unit list or an error. -/
theorem stripFraming_underflow (input : String) :
    ((stripFraming input.data).isSome ↔ 17 ≤ input.data.length) ∧
    (input.data.length < 17 → parse_message input = none) := by
  constructor
  · unfold stripFraming
    by_cases h : input.data.length < 17
    · rw [if_pos h]
      simp only [Option.isSome_none, Bool.false_eq_true, false_iff, not_le]
      exact h
    · rw [if_neg h]
      simp only [Option.isSome_some, true_iff]
      omega
  · intro h
    unfold parse_message stripFraming
    rw [if_pos h]

/-- Witness for C10: the empty input is shorter than 17 characters and the
decoder fails on it. -/
theorem stripFraming_underflow_witness : parse_message ("") = none :=
  (stripFraming_underflow ("")).2 (by decide)

/-- C5 counterexample: badInput violates the decoder's framing assumptions
(its first path token yields a path with no final component), and the decoder
aborts with the modelled context-free `unwrap` panic; the function's return
type has no error channel, so no descriptive error value is returned. -/
theorem parse_message_no_error_value : parse_message badInput = none := by decide

/-- C5 amended: on an input whose first decoded path token yields a path with
no final component, parse_message fails as a whole — the modelled `unwrap`
panic, which carries no descriptive context — rather than returning a
descriptive error value or silently producing a partial or corrupted list. -/
theorem parse_message_bad_path_panics (input : String) (message pt st : List Char)
    (rest : List (List Char × List Char))
    (h1 : stripFraming input.data = some message)
    (h2 : pairUp (splitOnChar ',' message) = (pt, st) :: rest)
    (h3 : rustFileName ((pt.drop 14).takeWhile (fun c => c != '"')) = none) :
    parse_message input = none := by
  unfold parse_message
  rw [h1]
  simp only [h2, buildUnits, unitOfPair, h3]

/-- Witness for C5's amended claim at the concrete malformed input. -/
theorem parse_message_bad_path_panics_witness : parse_message badInput = none :=
  parse_message_bad_path_panics badInput (("short,also").data) (("short").data)
    (("also").data) [] (by decide) (by decide) (by decide)

/-- C4 counterexample: a fresh listing holding two units with this unit's
path — the first Disabled, the second Enabled — makes is_enabled return
false although the listing does contain a unit with a matching path and
state Enabled. -/
theorem is_enabled_not_containment :
    is_enabled sshdUnit [dupDisabled, sshdUnit] = false ∧
    ∃ v ∈ [dupDisabled, sshdUnit], v.path = sshdUnit.path ∧ v.state = UnitState.Enabled := by
  refine ⟨by decide, sshdUnit, by simp, rfl, rfl⟩

/-- C4 amended: is_enabled returns true iff the first unit of the fresh
listing whose path equals this unit's path exists and has state Enabled; in
particular it returns false whenever no unit with a matching path is present
in the fresh listing. -/
theorem is_enabled_first_match (self : SystemdUnit) :
    ∀ L : List SystemdUnit,
      (is_enabled self L = true ↔ ∃ l₁ v l₂, L = l₁ ++ v :: l₂ ∧
        (∀ w ∈ l₁, w.path ≠ self.path) ∧ v.path = self.path ∧
        v.state = UnitState.Enabled) ∧
      ((∀ v ∈ L, v.path ≠ self.path) → is_enabled self L = false)
  | [] => by
    refine ⟨?_, fun _ => rfl⟩
    constructor
    · intro h; simp [is_enabled] at h
    · rintro ⟨l₁, v, l₂, heq, -⟩
      cases l₁ <;> simp at heq
  | a :: L => by
    by_cases hpa : a.path = self.path
    · have hfind : List.find? (fun u => decide (u.path = self.path)) (a :: L) = some a :=
        List.find?_cons_of_pos _ (by simp [hpa])
      have hred : is_enabled self (a :: L) = decide (a.state = UnitState.Enabled) := by
        unfold is_enabled; rw [hfind]
      constructor
      · rw [hred]
        constructor
        · intro hs
          exact ⟨[], a, L, rfl, by simp, hpa, by simpa using hs⟩
        · rintro ⟨l₁, v, l₂, heq, hnone, hvp, hvs⟩
          cases l₁ with
          | nil =>
            simp only [List.nil_append, List.cons.injEq] at heq
            obtain ⟨rfl, rfl⟩ := heq
            simp [hvs]
          | cons w l₁' =>
            simp only [List.cons_append, List.cons.injEq] at heq
            obtain ⟨rfl, -⟩ := heq
            exact absurd hpa (hnone a (by simp))
      · intro hall
        exact absurd hpa (hall a (by simp))
    · have hfind : List.find? (fun u => decide (u.path = self.path)) (a :: L) =
          List.find? (fun u => decide (u.path = self.path)) L :=
        List.find?_cons_of_neg _ (by simp [hpa])
      have hred : is_enabled self (a :: L) = is_enabled self L := by
        unfold is_enabled; rw [hfind]
      have ih := is_enabled_first_match self L
      constructor
      · rw [hred, ih.1]
        constructor
        · rintro ⟨l₁, v, l₂, rfl, hn, hvp, hvs⟩
          refine ⟨a :: l₁, v, l₂, rfl, ?_, hvp, hvs⟩
          intro w hw
          rcases List.mem_cons.1 hw with rfl | hw
          · exact hpa
          · exact hn w hw
        · rintro ⟨l₁, v, l₂, heq, hn, hvp, hvs⟩
          cases l₁ with
          | nil =>
            simp only [List.nil_append, List.cons.injEq] at heq
            obtain ⟨rfl, rfl⟩ := heq
            exact absurd hvp hpa
          | cons w l₁' =>
            simp only [List.cons_append, List.cons.injEq] at heq
            obtain ⟨rfl, rfl⟩ := heq
            exact ⟨l₁', v, l₂, rfl, fun w' hw' => hn w' (List.mem_cons_of_mem _ hw'), hvp, hvs⟩
      · intro hall
        rw [hred]
        exact ih.2 (fun v hv => hall v (List.mem_cons_of_mem _ hv))

/-- Witness for C4's amended claim: on an empty fresh listing (no matching
path), is_enabled is false. -/
theorem is_enabled_first_match_witness : is_enabled sshdUnit [] = false :=
  (is_enabled_first_match sshdUnit []).2 (by simp)

/-- C6 counterexample: a failed bus connection makes start abort — the
unwrap panic on `Connection::get_private` inside `dbus_connect!` — instead of
returning an error value, and a transport/timeout failure of the
ListUnitFiles round trip makes list_unit_files abort — the `expect` panic —
instead of returning an error value. -/
theorem transport_failure_aborts :
    startOp ("sshd.service") (Except.error ("connection refused"))
      (Except.ok ItemList.nil) = none ∧
    list_unit_files (Except.ok ()) (Except.error ("no reply")) = none :=
  ⟨rfl, rfl⟩

/-- C6 amended: every operation of the module — enable, disable, start, stop
and list_unit_files — aborts (the `dbus_connect!` unwrap panic, modelled as
`none`) when opening the bus connection fails, instead of returning an error
value; given an open connection, enable, disable, start and stop return a
success or an error value for every send outcome, propagating the diagnostic
text, while list_unit_files additionally aborts (the `expect` panic) on a
failure of `send_with_reply_and_block` instead of returning an error value. -/
theorem error_propagation (name e : String) :
    (∀ send : Except String ItemList,
      enableOp name (Except.error e) send = none ∧
      disableOp name (Except.error e) send = none ∧
      startOp name (Except.error e) send = none ∧
      stopOp name (Except.error e) send = none) ∧
    (∀ send : Except String String, list_unit_files (Except.error e) send = none) ∧
    enableOp name (Except.ok ()) (Except.error e) =
      some (Except.error ("Error enabling " ++ name ++ ":\n" ++ e)) ∧
    disableOp name (Except.ok ()) (Except.error e) =
      some (Except.error ("Error disabling " ++ name ++ ":\n" ++ e)) ∧
    startOp name (Except.ok ()) (Except.error e) =
      some (Except.error (name ++ " failed to start:\n" ++ e)) ∧
    stopOp name (Except.ok ()) (Except.error e) =
      some (Except.error (name ++ " failed to stop:\n" ++ e)) ∧
    (∀ items : ItemList, ∃ m,
      enableOp name (Except.ok ()) (Except.ok items) = some (Except.ok m)) ∧
    (∀ items : ItemList, ∃ m,
      disableOp name (Except.ok ()) (Except.ok items) = some (Except.ok m)) ∧
    (∀ items : ItemList, startOp name (Except.ok ()) (Except.ok items) =
      some (Except.ok (name ++ " successfully started"))) ∧
    (∀ items : ItemList, stopOp name (Except.ok ()) (Except.ok items) =
      some (Except.ok (name ++ " successfully stopped"))) ∧
    list_unit_files (Except.ok ()) (Except.error e) = none := by
  refine ⟨fun send => ⟨rfl, rfl, rfl, rfl⟩, fun send => rfl, rfl, rfl, rfl, rfl,
    ?_, ?_, fun _ => rfl, fun _ => rfl, rfl⟩
  · intro items
    by_cases hc : String.mk (fmtReply items) = "[Bool(true), Array([], \"(sss)\")]"
    · exact ⟨_, by simp only [enableOp, dbusConnect, enableHandle]; rw [if_pos hc]⟩
    · exact ⟨_, by simp only [enableOp, dbusConnect, enableHandle]; rw [if_neg hc]⟩
  · intro items
    by_cases hc : String.mk (fmtReply items) = "[Array([], \"(sss)\")]"
    · exact ⟨_, by simp only [disableOp, dbusConnect, disableHandle]; rw [if_pos hc]⟩
    · exact ⟨_, by simp only [disableOp, dbusConnect, disableHandle]; rw [if_neg hc]⟩

/-- C7: start and stop issue StartUnit / StopUnit with the arguments
(name, mode = "fail"); every reply, whatever its items, maps to the success
message, and every error maps to an error made of the unit name, the fixed
verb phrase ("failed to start" / "failed to stop") and the underlying error
text. -/
theorem start_stop_correct (name e : String) (items : ItemList) :
    startRequest name = (("StartUnit"),
      ItemList.cons (Item.str name) (ItemList.cons (Item.str ("fail")) ItemList.nil)) ∧
    stopRequest name = (("StopUnit"),
      ItemList.cons (Item.str name) (ItemList.cons (Item.str ("fail")) ItemList.nil)) ∧
    startHandle name (Except.ok items) = Except.ok (name ++ " successfully started") ∧
    stopHandle name (Except.ok items) = Except.ok (name ++ " successfully stopped") ∧
    startHandle name (Except.error e) = Except.error (name ++ " failed to start:\n" ++ e) ∧
    stopHandle name (Except.error e) = Except.error (name ++ " failed to stop:\n" ++ e) :=
  ⟨rfl, rfl, rfl, rfl, rfl, rfl⟩

/-! ## Injectivity of the reply debug rendering at the two checked shapes -/

theorem enInnerChars_data : '[' :: enInnerChars ++ [']'] = "[Bool(true), Array([], \"(sss)\")]".data := by
  decide

theorem arrInnerChars_data : '[' :: arrInnerChars ++ [']'] = "[Array([], \"(sss)\")]".data := by
  decide

theorem fmtItem_shape : ∀ i : Item,
    ∃ t, fmtItem i = 'B' :: t ∨ fmtItem i = 'S' :: t ∨ fmtItem i = 'A' :: t
  | Item.bool true => ⟨_, Or.inl rfl⟩
  | Item.bool false => ⟨_, Or.inl rfl⟩
  | Item.str _ => ⟨_, Or.inr (Or.inl rfl)⟩
  | Item.array _ _ => ⟨_, Or.inr (Or.inr rfl)⟩

theorem fmtList_cons_eq (i : Item) (rest : ItemList) :
    fmtList (ItemList.cons i rest) = fmtItem i ++ fmtSep rest := by
  cases rest with
  | nil => simp [fmtList, fmtSep]
  | cons j r => simp [fmtList, fmtSep]

theorem fmtSep_eq_nil (rest : ItemList) (h : fmtSep rest = []) : rest = ItemList.nil := by
  cases rest with
  | nil => rfl
  | cons j r => simp [fmtSep] at h

theorem escChars_cancel (tgt : List Char) (hcl : ∀ c ∈ tgt, c ≠ '"' ∧ c ≠ '\\') :
    ∀ (l x y : List Char), escChars l ++ '"' :: x = tgt ++ '"' :: y → l = tgt ∧ x = y := by
  induction tgt with
  | nil =>
    intro l x y h
    cases l with
    | nil =>
      simp only [escChars, List.nil_append, List.cons.injEq, true_and] at h
      exact ⟨rfl, h⟩
    | cons c t =>
      by_cases hc : c = '"'
      · subst hc
        rw [show escChars ('"' :: t) = '\\' :: '"' :: escChars t from by simp [escChars]] at h
        simp only [List.cons_append, List.nil_append, List.cons.injEq] at h
        exact absurd h.1 (by decide)
      · by_cases hc2 : c = '\\'
        · subst hc2
          rw [show escChars ('\\' :: t) = '\\' :: '\\' :: escChars t from by
            simp [escChars]] at h
          simp only [List.cons_append, List.nil_append, List.cons.injEq] at h
          exact absurd h.1 (by decide)
        · rw [show escChars (c :: t) = c :: escChars t from by simp [escChars, hc, hc2]] at h
          simp only [List.cons_append, List.nil_append, List.cons.injEq] at h
          exact absurd h.1 hc
  | cons d ds ih =>
    intro l x y h
    have hd := hcl d (by simp)
    cases l with
    | nil =>
      simp only [escChars, List.nil_append, List.cons_append, List.cons.injEq] at h
      exact absurd h.1.symm hd.1
    | cons c t =>
      by_cases hc : c = '"'
      · subst hc
        rw [show escChars ('"' :: t) = '\\' :: '"' :: escChars t from by simp [escChars]] at h
        simp only [List.cons_append, List.cons.injEq] at h
        exact absurd h.1.symm hd.2
      · by_cases hc2 : c = '\\'
        · subst hc2
          rw [show escChars ('\\' :: t) = '\\' :: '\\' :: escChars t from by
            simp [escChars]] at h
          simp only [List.cons_append, List.cons.injEq] at h
          exact absurd h.1.symm hd.2
        · rw [show escChars (c :: t) = c :: escChars t from by simp [escChars, hc, hc2]] at h
          simp only [List.cons_append, List.cons.injEq] at h
          obtain ⟨rfl, h2⟩ := h
          obtain ⟨rfl, rfl⟩ := ih (fun e he => hcl e (by simp [he])) t x y h2
          exact ⟨rfl, rfl⟩

theorem fmtList_arrTarget : ∀ its : ItemList, fmtList its = arrInnerChars →
    its = ItemList.cons (Item.array ItemList.nil ("(sss)")) ItemList.nil := by
  intro its h
  simp only [arrInnerChars] at h
  cases its with
  | nil => simp [fmtList] at h
  | cons i rest =>
    rw [fmtList_cons_eq] at h
    cases i with
    | bool b =>
      cases b <;> (simp only [fmtItem, List.cons_append] at h; simp at h)
    | str s =>
      simp only [fmtItem, List.cons_append, List.append_assoc] at h
      simp at h
    | array xs sig =>
      simp only [fmtItem, List.cons_append, List.append_assoc] at h
      simp only [List.cons.injEq, true_and] at h
      simp at h
      cases xs with
      | nil =>
        simp only [fmtList, List.nil_append] at h
        simp at h
        -- h : escChars sig.data ++ '"' :: ')' :: fmtSep rest = ['(','s','s','s',')','"',')']
        have hsplit : (['(', 's', 's', 's', ')', '"', ')'] : List Char) =
            ['(', 's', 's', 's', ')'] ++ '"' :: [')'] := by decide
        rw [hsplit] at h
        obtain ⟨hsig, ht⟩ := escChars_cancel ['(', 's', 's', 's', ')'] (by decide)
          sig.data (')' :: fmtSep rest) [')'] h
        have hsig' : sig = "(sss)" := congrArg String.mk hsig
        simp only [List.cons.injEq, true_and] at ht
        rw [fmtSep_eq_nil rest ht, hsig']
      | cons j xs' =>
        rw [fmtList_cons_eq] at h
        obtain ⟨t2, hsh⟩ := fmtItem_shape j
        rcases hsh with hh | hh | hh <;>
          (rw [hh] at h; simp only [List.cons_append, List.append_assoc] at h; simp at h)

theorem fmtList_enTarget : ∀ its : ItemList, fmtList its = enInnerChars →
    its = enAlreadyItems := by
  intro its h
  simp only [enInnerChars] at h
  cases its with
  | nil => simp [fmtList] at h
  | cons i rest =>
    rw [fmtList_cons_eq] at h
    cases i with
    | str s =>
      simp only [fmtItem, List.cons_append, List.append_assoc] at h
      simp at h
    | array xs sig =>
      simp only [fmtItem, List.cons_append, List.append_assoc] at h
      simp at h
    | bool b =>
      cases b with
      | false =>
        simp only [fmtItem, List.cons_append] at h
        simp at h
      | true =>
        simp only [fmtItem, List.cons_append] at h
        simp at h
        -- h : fmtSep rest = [',', ' ', 'A', ...]
        cases rest with
        | nil => simp [fmtSep] at h
        | cons j rest2 =>
          simp only [fmtSep, List.cons_append, List.singleton_append] at h
          simp at h
          have harr : fmtList (ItemList.cons j rest2) = arrInnerChars := by
            simp only [arrInnerChars]
            exact h
          rw [fmtList_arrTarget _ harr]
          rfl

theorem fmtReply_enable_iff (its : ItemList) :
    String.mk (fmtReply its) = "[Bool(true), Array([], \"(sss)\")]" ↔ its = enAlreadyItems := by
  constructor
  · intro h
    have hd : fmtReply its = "[Bool(true), Array([], \"(sss)\")]".data := congrArg String.data h
    rw [← enInnerChars_data] at hd
    unfold fmtReply at hd
    exact fmtList_enTarget its (List.append_cancel_right (List.cons.inj hd).2)
  · rintro rfl
    decide

theorem fmtReply_disable_iff (its : ItemList) :
    String.mk (fmtReply its) = "[Array([], \"(sss)\")]" ↔ its = disAlreadyItems := by
  constructor
  · intro h
    have hd : fmtReply its = "[Array([], \"(sss)\")]".data := congrArg String.data h
    rw [← arrInnerChars_data] at hd
    unfold fmtReply at hd
    exact fmtList_arrTarget its (List.append_cancel_right (List.cons.inj hd).2)
  · rintro rfl
    decide

/-- C3: the enable handler returns the already-enabled message exactly when
the daemon reply is the item sequence of a true boolean followed by an empty
changes array (whose fixed element signature is (sss)), and the has-been-
enabled message for every other non-error reply; the disable handler returns
the already-disabled message exactly when the reply is a lone empty changes
array, and the has-been-disabled message for every other non-error reply. -/
theorem reply_shape_discrimination (name : String) (items : ItemList) :
    ((items = enAlreadyItems →
        enableHandle name (Except.ok items) = Except.ok (name ++ " already enabled")) ∧
      (items ≠ enAlreadyItems →
        enableHandle name (Except.ok items) = Except.ok (name ++ " has been enabled"))) ∧
    ((items = disAlreadyItems →
        disableHandle name (Except.ok items) = Except.ok (name ++ " is already disabled")) ∧
      (items ≠ disAlreadyItems →
        disableHandle name (Except.ok items) = Except.ok (name ++ " has been disabled"))) := by
  refine ⟨⟨?_, ?_⟩, ?_, ?_⟩
  · rintro rfl
    simp only [enableHandle]
    rw [if_pos ((fmtReply_enable_iff _).2 rfl)]
  · intro hne
    simp only [enableHandle]
    rw [if_neg (fun hc => hne ((fmtReply_enable_iff _).1 hc))]
  · rintro rfl
    simp only [disableHandle]
    rw [if_pos ((fmtReply_disable_iff _).2 rfl)]
  · intro hne
    simp only [disableHandle]
    rw [if_neg (fun hc => hne ((fmtReply_disable_iff _).1 hc))]

/-- Witness for C3: both discriminations evaluated at the singled-out reply
shapes and at a different (empty) reply. -/
theorem reply_shape_discrimination_witness :
    enableHandle ("sshd.service") (Except.ok enAlreadyItems) =
      Except.ok ("sshd.service" ++ " already enabled") ∧
    enableHandle ("sshd.service") (Except.ok ItemList.nil) =
      Except.ok ("sshd.service" ++ " has been enabled") ∧
    disableHandle ("sshd.service") (Except.ok disAlreadyItems) =
      Except.ok ("sshd.service" ++ " is already disabled") ∧
    disableHandle ("sshd.service") (Except.ok ItemList.nil) =
      Except.ok ("sshd.service" ++ " has been disabled") :=
  ⟨((reply_shape_discrimination ("sshd.service") enAlreadyItems).1).1 rfl,
    ((reply_shape_discrimination ("sshd.service") ItemList.nil).1).2
      (fun h => ItemList.noConfusion h),
    ((reply_shape_discrimination ("sshd.service") disAlreadyItems).2).1 rfl,
    ((reply_shape_discrimination ("sshd.service") ItemList.nil).2).2
      (fun h => ItemList.noConfusion h)⟩

/-- C8: decoding the raw listing text of the two units yields exactly the
units foo@.service (Service, Disabled) and sshd.service (Service, Enabled),
and the togglable-services filter applied to that list keeps only
sshd.service, excluding the template unit. -/
theorem end_to_end_scenario :
    parse_message rawListing = some [fooUnit, sshdUnit] ∧
    fooUnit.name = "foo@.service" ∧ fooUnit.utype = UnitType.Service ∧
    fooUnit.state = UnitState.Disabled ∧
    sshdUnit.name = "sshd.service" ∧ sshdUnit.utype = UnitType.Service ∧
    sshdUnit.state = UnitState.Enabled ∧
    collect_togglable_services [fooUnit, sshdUnit] = [sshdUnit] :=
  ⟨by decide, rfl, rfl, rfl, rfl, rfl, rfl, by decide⟩

end SystemdManager
